import Mathlib

/-!
Verification of the `configure.py` setup utility of aiserve-gpuproxyd.

The Python source is shallowly embedded as follows:
* text is `List Char`; an env file is a `List (List Char)` of lines exactly as
  Python `readlines` produces them (each line keeps its trailing newline);
* external processes are modeled by an environment function
  `exitCode : List String → Int` giving the exit code of each argument vector;
  every orchestration function returns the ordered trace of argument vectors it
  invoked, so "command X was attempted n times" is a statement about the trace;
* interactive `input()` responses come from an oracle `inputs : Nat → String`
  holding the already stripped/lowercased responses where the source applies
  that processing;
* file existence is tracked by boolean fields of a `World` record; file
  contents (which never influence control flow, traces or exit codes of the
  dispatcher) are treated by the dedicated content-level functions
  `upsertLines` and `substituteJwtSecret`.
-/

namespace GpuProxyConfigure

/-- Python `s.startswith(p)` on character lists. -/
def listStartsWith : List Char → List Char → Bool
  | _, [] => true
  | [], _ :: _ => false
  | c :: cs, p :: ps => c == p && listStartsWith cs ps

/-- Auxiliary scanner for Python `str.replace` (replace every non-overlapping
occurrence, scanning left to right).  The `Nat` argument counts characters of
the current match still to be skipped. -/
def pyReplaceAux (old new : List Char) : Nat → List Char → List Char
  | _, [] => []
  | k + 1, _ :: rest => pyReplaceAux old new k rest
  | 0, c :: rest =>
    if listStartsWith (c :: rest) old then
      new ++ pyReplaceAux old new (old.length - 1) rest
    else
      c :: pyReplaceAux old new 0 rest

/-- Python `s.replace(old, new)` for a nonempty pattern `old`; the only
pattern used by the source is the fixed nonempty placeholder literal, so the
degenerate empty-pattern case (whose Python semantics differ) is returned
unchanged. -/
def pyReplace (s old new : List Char) : List Char :=
  if old.isEmpty then s else pyReplaceAux old new 0 s

/- ### Environment file mutation (`ConfigurationManager.update_env_var`) -/

/-- The match test of `update_env_var`: Python
`line.startswith(key + "=")`. -/
def matchesKey (key line : List Char) : Bool :=
  listStartsWith line (key ++ ['='])

/-- The line written by `update_env_var`: Python `key + "=" + value + "\n"`
(both the in-place replacement and the appended line use this text). -/
def mkLine (key value : List Char) : List Char :=
  key ++ '=' :: (value ++ ['\n'])

/-- The in-memory part of `update_env_var` (source lines 224-232): linearly
scan the lines for the first one starting with `key=`; replace it in place if
found, otherwise append the new line at the end. -/
def upsertLines (key value : List Char) : List (List Char) → List (List Char)
  | [] => [mkLine key value]
  | l :: ls =>
    if matchesKey key l then mkLine key value :: ls
    else l :: upsertLines key value ls

/-- `update_env_var` at the file-system level (source lines 216-235): the env
file is `none` when absent; when absent the function returns immediately
without creating the file or writing anything, otherwise it reads all lines,
upserts, and rewrites the whole file. -/
def update_env_var (file : Option (List (List Char))) (key value : List Char) :
    Option (List (List Char)) :=
  match file with
  | none => none
  | some lines => some (upsertLines key value lines)

/- ### Secret generation (`ConfigurationManager.generate_secret`) -/

/-- Python `string.ascii_letters`. -/
def ascii_letters : String :=
  "abcdefghijklmnopqrstuvwxyzABCDEFGHIJKLMNOPQRSTUVWXYZ"

/-- Python `string.digits`. -/
def digitsStr : String := "0123456789"

/-- The alphabet of `generate_secret` (source line 175):
`string.ascii_letters + string.digits + "!@#$%^&*(-_=+)"`. -/
def secretAlphabet : List Char :=
  (ascii_letters ++ digitsStr ++ "!@#$%^&*(-_=+)").toList

/-- `generate_secret` (source lines 173-176).  The cryptographically secure
`secrets.choice(alphabet)` is modeled by an oracle `choice` that yields, for
each of the `length` draws, the index of the chosen alphabet element; by
construction of `secrets.choice` every draw is an element of the alphabet. -/
def generate_secret (length : Nat) (choice : Nat → Fin secretAlphabet.length) :
    List Char :=
  (List.range length).map fun i => secretAlphabet.get (choice i)

/- ### JWT placeholder substitution (`ConfigurationManager.setup_environment`,
source lines 147-156) -/

/-- The placeholder literal replaced in `setup_environment`. -/
def jwtPlaceholder : List Char :=
  "JWT_SECRET=changeme-generate-a-secure-random-string".toList

/-- The replacement text: Python f-string `JWT_SECRET=` followed by the
generated secret. -/
def jwtReplacement (secret : List Char) : List Char :=
  "JWT_SECRET=".toList ++ secret

/-- The secret-insertion step of `setup_environment` (source lines 150-153):
`content.replace(placeholder, f-string)`. -/
def substituteJwtSecret (content secret : List Char) : List Char :=
  pyReplace content jwtPlaceholder (jwtReplacement secret)

/-- The substitution behavior the claim describes: replace only the first
occurrence of the pattern and leave everything after it untouched.  Stated
from the claim wording, for comparison with `substituteJwtSecret`. -/
def replaceFirstOcc (old new : List Char) : List Char → List Char
  | [] => []
  | c :: rest =>
    if listStartsWith (c :: rest) old then
      new ++ (c :: rest).drop old.length
    else
      c :: replaceFirstOcc old new rest

/- ### The EnvFile invariant (spec section 3)

The spec describes a subset of the lines as encoding KEY=VALUE pairs, with
comments and blank lines as the non-encoding lines.  These definitions state
that notion for the invariant claims; the source itself has no key parser. -/

/-- A comment line: its first character is `#`. -/
def isCommentLine (l : List Char) : Bool := l.head? == some '#'

/-- A blank line: every character is whitespace. -/
def isBlankLine (l : List Char) : Bool :=
  l.all fun c => c == ' ' || c == '\t' || c == '\r' || c == '\n'

/-- The key encoded by a line: a non-comment, non-blank line containing `=`
encodes the key formed by the characters before the first `=`. -/
def lineKey (l : List Char) : Option (List Char) :=
  if isCommentLine l || isBlankLine l then none
  else if '=' ∈ l then some (l.takeWhile fun c => c != '=')
  else none

/-- The ordered list of keys encoded by an env file. -/
def envKeys (lines : List (List Char)) : List (List Char) :=
  lines.filterMap lineKey

/- ### External commands and the World -/

/-- An external command: its argument vector. -/
abbrev Argv := List String

/-- Probe commands of `check_dependencies` (source lines 96-101), in the
iteration order of the Python dict. -/
def goVersionCmd : Argv := ["go", "version"]

/-- Probe for the optional docker tool. -/
def dockerVersionCmd : Argv := ["docker", "--version"]

/-- Probe for the optional docker-compose tool. -/
def composeVersionCmd : Argv := ["docker-compose", "--version"]

/-- Probe for the required git tool. -/
def gitVersionCmd : Argv := ["git", "--version"]

/-- `go mod download` (source line 287). -/
def goModDownloadCmd : Argv := ["go", "mod", "download"]

/-- `go mod tidy` (source line 293). -/
def goModTidyCmd : Argv := ["go", "mod", "tidy"]

/-- Build flags (source lines 245-247). -/
def buildFlags (debug : Bool) : List String :=
  if debug then ["-gcflags", "all=-N -l"] else []

/-- The server build command (source line 251). -/
def serverBuildCmd (debug : Bool) : Argv :=
  ["go", "build"] ++ buildFlags debug ++ ["-o", "bin/aiserve-gpuproxyd", "./cmd/server"]

/-- The client build command (source line 261). -/
def clientBuildCmd (debug : Bool) : Argv :=
  ["go", "build"] ++ buildFlags debug ++ ["-o", "bin/aiserve-gpuproxy-client", "./cmd/client"]

/-- The admin build command (source line 270). -/
def adminBuildCmd (debug : Bool) : Argv :=
  ["go", "build"] ++ buildFlags debug ++ ["-o", "bin/aiserve-gpuproxy-admin", "./cmd/admin"]

/-- The container start command of `setup_database` (source line 308). -/
def composeUpDbCmd : Argv := ["docker-compose", "up", "-d", "postgres", "redis"]

/-- Path of the built admin binary (relative to the project root, which the
source resolves to an absolute path). -/
def adminToolPath : String := "bin/aiserve-gpuproxy-admin"

/-- Path of the built server binary. -/
def serverBinPath : String := "bin/aiserve-gpuproxyd"

/-- The migrate command of `setup_database` (source line 331). -/
def migrateCmd : Argv := [adminToolPath, "migrate"]

/-- `go test -v ./...` (source line 397). -/
def goTestCmd : Argv := ["go", "test", "-v", "./..."]

/-- `docker-compose build` (source line 433). -/
def composeBuildCmd : Argv := ["docker-compose", "build"]

/-- `docker-compose up -d` (source line 446). -/
def composeUpAllCmd : Argv := ["docker-compose", "up", "-d"]

/-- `docker-compose ps` (source line 482). -/
def composePsCmd : Argv := ["docker-compose", "ps"]

/-- The development server launch command (source line 422). -/
def devServerCmd : Argv := [serverBinPath, "-dv", "-dm"]

/-- The environment a run of the utility interacts with: the exit code of
every external command, which files currently exist, and the stream of
interactive responses (`inputs i` is the response to the i-th prompt, already
stripped/lowercased where the source applies that processing; `inputIdx` is
the index of the next prompt). -/
structure World where
  exitCode : Argv → Int
  envFileExists : Bool
  envExampleExists : Bool
  binServerExists : Bool
  binClientExists : Bool
  binAdminExists : Bool
  inputs : Nat → String
  inputIdx : Nat

/-- Consume one interactive response. -/
def popInput (w : World) : String × World :=
  (w.inputs w.inputIdx, { w with inputIdx := w.inputIdx + 1 })

/-- Python `s or default` for stripped input strings. -/
def orDefault (s d : String) : String := if s = "" then d else s

/- ### Orchestration steps.  Each returns the ordered trace of external
commands it invoked, its boolean result where the source returns one, and the
updated world where it changes state. -/

/-- `check_dependencies` (source lines 92-119): probes all four tools in dict
order; the overall result requires the two required tools (go, git) to exit
zero, while docker and docker-compose only produce warnings. -/
def check_dependencies (w : World) : List Argv × Bool :=
  ([goVersionCmd, dockerVersionCmd, composeVersionCmd, gitVersionCmd],
    (w.exitCode goVersionCmd == 0) && (w.exitCode gitVersionCmd == 0))

/-- `install_dependencies` (source lines 282-299): download then tidy, each
failure aborting immediately. -/
def install_dependencies (w : World) : List Argv × Bool :=
  if w.exitCode goModDownloadCmd ≠ 0 then ([goModDownloadCmd], false)
  else if w.exitCode goModTidyCmd ≠ 0 then ([goModDownloadCmd, goModTidyCmd], false)
  else ([goModDownloadCmd, goModTidyCmd], true)

/-- `configure_database` (source lines 178-201): one prompt for the kind,
then five prompts for postgres or one for sqlite; all mutation goes through
`update_env_var`, which invokes no external command. -/
def configure_database (w : World) : World :=
  let (t, w1) := popInput w
  let dbType := orDefault t "postgres"
  if dbType = "postgres" then
    let (_, w2) := popInput w1
    let (_, w3) := popInput w2
    let (_, w4) := popInput w3
    let (_, w5) := popInput w4
    let (_, w6) := popInput w5
    w6
  else
    let (_, w2) := popInput w1
    w2

/-- `configure_gpu_providers` (source lines 203-214): two prompts; non-empty
responses are upserted (no external command either way). -/
def configure_gpu_providers (w : World) : World :=
  let (_, w1) := popInput w
  let (_, w2) := popInput w1
  w2

/-- `setup_environment` (source lines 121-171): possibly prompt to confirm
overwrite, abort if the template is missing, copy it (the env file then
exists), generate and substitute secrets (no external command), then offer
the two interactive sub-flows.  No branch invokes an external command. -/
def setup_environment (w : World) (force : Bool) : World :=
  let (goOn, w1) :=
    if w.envFileExists && !force then
      let (resp, w1) := popInput w
      (resp = "y", w1)
    else (true, w)
  if !goOn then w1
  else if !w1.envExampleExists then w1
  else
    let w2 := { w1 with envFileExists := true }
    let (r1, w3) := popInput w2
    let w4 := if r1 = "y" then configure_database w3 else w3
    let (r2, w5) := popInput w4
    if r2 = "y" then configure_gpu_providers w5 else w5

/-- `build_project` (source lines 237-280): server first, fatally; then
client and admin, whose failures only warn; a target that builds successfully
makes its binary exist. -/
def build_project (w : World) (debug : Bool) : World × List Argv × Bool :=
  if w.exitCode (serverBuildCmd debug) ≠ 0 then
    (w, [serverBuildCmd debug], false)
  else
    let w1 := { w with binServerExists := true }
    let w2 :=
      if w1.exitCode (clientBuildCmd debug) = 0 then
        { w1 with binClientExists := true }
      else w1
    let w3 :=
      if w2.exitCode (adminBuildCmd debug) = 0 then
        { w2 with binAdminExists := true }
      else w2
    (w3, [serverBuildCmd debug, clientBuildCmd debug, adminBuildCmd debug], true)

/-- `setup_database` (source lines 301-342): in docker mode, start the
database services and abort on failure (then sleep, which invokes nothing);
abort if the admin binary is missing; otherwise run migrate once and report
its exit code. -/
def setup_database (w : World) (docker : Bool) : List Argv × Bool :=
  if docker then
    if w.exitCode composeUpDbCmd ≠ 0 then ([composeUpDbCmd], false)
    else if !w.binAdminExists then ([composeUpDbCmd], false)
    else ([composeUpDbCmd, migrateCmd], w.exitCode migrateCmd == 0)
  else
    if !w.binAdminExists then ([], false)
    else ([migrateCmd], w.exitCode migrateCmd == 0)

/-- `create_admin_user` (source lines 344-389): requires the admin binary,
collects email and password (empty aborts), then invokes create-user and, on
its success, make-admin. -/
def create_admin_user (w : World) : World × List Argv :=
  if !w.binAdminExists then (w, [])
  else
    let (email, w1) := popInput w
    if email = "" then (w1, [])
    else
      let (pw, w2) := popInput w1
      if pw = "" then (w2, [])
      else
        let (nm, w3) := popInput w2
        let name := orDefault nm "Admin"
        let c1 : Argv := [adminToolPath, "create-user", email, pw, name]
        if w3.exitCode c1 ≠ 0 then (w3, [c1])
        else (w3, [c1, [adminToolPath, "make-admin", email]])

/-- `run_tests` (source lines 391-406). -/
def run_tests (w : World) : List Argv × Bool :=
  ([goTestCmd], w.exitCode goTestCmd == 0)

/-- `start_dev_server` (source lines 408-425): requires the server binary,
then launches it with the two fixed flags. -/
def start_dev_server (w : World) : List Argv :=
  if !w.binServerExists then [] else [devServerCmd]

/-- `docker_setup` (source lines 427-459): build images then bring services
up, each failure fatal. -/
def docker_setup (w : World) : List Argv × Bool :=
  if w.exitCode composeBuildCmd ≠ 0 then ([composeBuildCmd], false)
  else if w.exitCode composeUpAllCmd ≠ 0 then ([composeBuildCmd, composeUpAllCmd], false)
  else ([composeBuildCmd, composeUpAllCmd], true)

/-- `show_status` (source lines 461-489): read-only existence checks plus one
`docker-compose ps` invocation. -/
def show_status (_ : World) : List Argv :=
  [composePsCmd]

/-- The parsed command-line flags (source lines 519-548). -/
structure Args where
  setup : Bool
  check : Bool
  deps : Bool
  env : Bool
  build : Bool
  db : Bool
  create_admin : Bool
  test : Bool
  dev : Bool
  docker : Bool
  status : Bool
  debug : Bool
  force : Bool
  docker_db : Bool

/-- The all-false flag record produced when no flag is given. -/
def noFlags : Args :=
  ⟨false, false, false, false, false, false, false,
   false, false, false, false, false, false, false⟩

/-- `main` (source lines 492-624): `argc` is `len(sys.argv)`; with no
arguments the usage text is printed and the process exits 0 before any
manager call; otherwise the pipeline runs in source order with the per-step
fatality of the source (`sys.exit(1)` on a failed check, install, build,
database setup, test run or docker setup).  The result is the process exit
code together with the ordered trace of all external commands invoked. -/
def main (argc : Nat) (args : Args) (w0 : World) : Int × List Argv :=
  if argc = 1 then (0, [])
  else
    let (trC, okC) :=
      if args.check || args.setup then check_dependencies w0 else ([], true)
    if okC = false then (1, trC)
    else
      let (trI, okI) :=
        if args.deps || args.setup then install_dependencies w0 else ([], true)
      if okI = false then (1, trC ++ trI)
      else
        let w1 := if args.env then setup_environment w0 args.force else w0
        let (w2, trB, okB) :=
          if args.build || args.setup then build_project w1 args.debug
          else (w1, [], true)
        if okB = false then (1, trC ++ trI ++ trB)
        else
          let (trD, okD) :=
            if args.db then setup_database w2 args.docker_db else ([], true)
          if okD = false then (1, trC ++ trI ++ trB ++ trD)
          else
            let (w3, trA) :=
              if args.create_admin then create_admin_user w2 else (w2, [])
            let (trT, okT) := if args.test then run_tests w3 else ([], true)
            if okT = false then (1, trC ++ trI ++ trB ++ trD ++ trA ++ trT)
            else
              let (trK, okK) :=
                if args.docker then docker_setup w3 else ([], true)
              if okK = false then
                (1, trC ++ trI ++ trB ++ trD ++ trA ++ trT ++ trK)
              else
                let trV := if args.dev then start_dev_server w3 else []
                let trS := if args.status then show_status w3 else []
                (0, trC ++ trI ++ trB ++ trD ++ trA ++ trT ++ trK ++ trV ++ trS)

/- ### Concrete environments and inputs used by witnesses and
counterexamples -/

/-- A world in which the server build target fails and every other command
succeeds. -/
def wServerFail : World :=
  ⟨fun c => if c = serverBuildCmd false then 1 else 0,
   false, false, false, false, false, fun _ => "", 0⟩

/-- A world in which only the server build target succeeds: the client and
admin compilations both exit 1. -/
def wOnlyServerOk : World :=
  ⟨fun c => if c = serverBuildCmd false then 0 else 1,
   false, false, false, false, false, fun _ => "", 0⟩

/-- A world in which the admin binary exists but the container start command
fails. -/
def wComposeFail : World :=
  ⟨fun c => if c = composeUpDbCmd then 1 else 0,
   false, false, false, false, true, fun _ => "", 0⟩

/-- A world in which the required go probe fails and every other command
succeeds. -/
def wGoProbeFail : World :=
  ⟨fun c => if c = goVersionCmd then 1 else 0,
   false, false, false, false, false, fun _ => "", 0⟩

/-- The dependency-install and build commands, for stating that none of them
is invoked. -/
def installOrBuildCmds (debug : Bool) : List Argv :=
  [goModDownloadCmd, goModTidyCmd,
   serverBuildCmd debug, clientBuildCmd debug, adminBuildCmd debug]

/-- A file content holding two copies of the secret placeholder. -/
def twoPlaceholders : List Char :=
  jwtPlaceholder ++ '\n' :: (jwtPlaceholder ++ ['\n'])

/-- A concrete 64-character secret. -/
def secret64 : List Char := List.replicate 64 'a'

/-- A concrete prefix for the substitution witness. -/
def preW : List Char := "A=1\n".toList

/-- A concrete suffix for the substitution witness. -/
def sufW : List Char := "\nB=2\n".toList

/- ### Helper lemmas -/

theorem listStartsWith_iff {l p : List Char} :
    listStartsWith l p = true ↔ ∃ t, l = p ++ t := by
  induction p generalizing l with
  | nil => simp [listStartsWith]
  | cons q qs ih =>
    cases l with
    | nil => simp [listStartsWith]
    | cons c cs =>
      simp only [listStartsWith, Bool.and_eq_true, beq_iff_eq, ih,
        List.cons_append, List.cons_eq_cons]
      constructor
      · rintro ⟨rfl, t, rfl⟩
        exact ⟨t, rfl, rfl⟩
      · rintro ⟨t, rfl, rfl⟩
        exact ⟨rfl, t, rfl⟩

theorem listStartsWith_append (p t : List Char) :
    listStartsWith (p ++ t) p = true :=
  listStartsWith_iff.mpr ⟨t, rfl⟩

theorem upsertLines_not_found {key : List Char} (value : List Char)
    {lines : List (List Char)} (h : ∀ l ∈ lines, matchesKey key l = false) :
    upsertLines key value lines = lines ++ [mkLine key value] := by
  induction lines with
  | nil => rfl
  | cons l ls ih =>
    have hl := h l (List.mem_cons_self l ls)
    simp only [upsertLines, hl, Bool.false_eq_true, if_false, List.cons_append,
      List.cons.injEq, true_and]
    exact ih fun x hx => h x (List.mem_cons_of_mem l hx)

theorem upsertLines_found {key : List Char} (value : List Char)
    {pre : List (List Char)} {l : List Char} (post : List (List Char))
    (hpre : ∀ x ∈ pre, matchesKey key x = false) (hl : matchesKey key l = true) :
    upsertLines key value (pre ++ l :: post) = pre ++ mkLine key value :: post := by
  induction pre with
  | nil => simp [upsertLines, hl]
  | cons p ps ih =>
    have hp := hpre p (List.mem_cons_self p ps)
    simp only [List.cons_append, upsertLines, hp, Bool.false_eq_true, if_false,
      List.cons.injEq, true_and]
    exact ih fun x hx => hpre x (List.mem_cons_of_mem p hx)

theorem first_match_split (key : List Char) (lines : List (List Char)) :
    (∀ l ∈ lines, matchesKey key l = false) ∨
    ∃ pre l post, lines = pre ++ l :: post ∧
      (∀ x ∈ pre, matchesKey key x = false) ∧ matchesKey key l = true := by
  induction lines with
  | nil => exact Or.inl (by simp)
  | cons a as ih =>
    by_cases ha : matchesKey key a = true
    · exact Or.inr ⟨[], a, as, rfl, by simp, ha⟩
    · have ha' : matchesKey key a = false := by
        cases h : matchesKey key a
        · rfl
        · exact absurd h ha
      rcases ih with h | ⟨pre, l, post, rfl, hpre, hl⟩
      · refine Or.inl ?_
        intro x hx
        rcases List.mem_cons.mp hx with rfl | hx
        · exact ha'
        · exact h x hx
      · refine Or.inr ⟨a :: pre, l, post, rfl, ?_, hl⟩
        intro x hx
        rcases List.mem_cons.mp hx with rfl | hx
        · exact ha'
        · exact hpre x hx

theorem takeWhile_ne_append {key : List Char} (t : List Char) (h : '=' ∉ key) :
    (key ++ '=' :: t).takeWhile (fun c => c != '=') = key := by
  induction key with
  | nil => simp [List.takeWhile_cons]
  | cons c cs ih =>
    have hc : c ≠ '=' := fun e => h (e ▸ List.mem_cons_self c cs)
    simp only [List.cons_append, List.takeWhile_cons, bne_iff_ne, ne_eq, hc,
      not_false_eq_true, if_true, List.cons.injEq, true_and]
    exact ih fun m => h (List.mem_cons_of_mem c m)

theorem isCommentLine_split {key : List Char} (t : List Char)
    (h : key.head? ≠ some '#') : isCommentLine (key ++ '=' :: t) = false := by
  cases key with
  | nil => rfl
  | cons c cs =>
    have hc : c ≠ '#' := fun e => h (by simp [e])
    simp [isCommentLine, hc]

theorem isBlankLine_split (key t : List Char) :
    isBlankLine (key ++ '=' :: t) = false := by
  rw [Bool.eq_false_iff]
  intro hall
  rw [isBlankLine, List.all_eq_true] at hall
  exact absurd (hall '=' (by simp)) (by decide)

theorem lineKey_split {key : List Char} (t : List Char) (hk : '=' ∉ key)
    (hh : key.head? ≠ some '#') : lineKey (key ++ '=' :: t) = some key := by
  rw [lineKey, isCommentLine_split t hh, isBlankLine_split]
  simp [takeWhile_ne_append t hk]

theorem matchesKey_split {key l : List Char} (h : matchesKey key l = true) :
    ∃ t, l = key ++ '=' :: t := by
  obtain ⟨t, ht⟩ := listStartsWith_iff.mp h
  exact ⟨t, by simpa [List.append_assoc] using ht⟩

theorem lineKey_of_matches {key l : List Char} (hk : '=' ∉ key)
    (hh : key.head? ≠ some '#') (h : matchesKey key l = true) :
    lineKey l = some key := by
  obtain ⟨t, rfl⟩ := matchesKey_split h
  exact lineKey_split t hk hh

theorem lineKey_mkLine {key : List Char} (value : List Char) (hk : '=' ∉ key)
    (hh : key.head? ≠ some '#') : lineKey (mkLine key value) = some key :=
  lineKey_split (value ++ ['\n']) hk hh

theorem not_comment_blank_of_matches {key l : List Char}
    (hh : key.head? ≠ some '#') (h : matchesKey key l = true) :
    (isCommentLine l || isBlankLine l) = false := by
  obtain ⟨t, rfl⟩ := matchesKey_split h
  rw [isCommentLine_split t hh, isBlankLine_split]
  rfl

theorem takeWhile_split_at_eq {l : List Char} (h : '=' ∈ l) :
    ∃ t, l = l.takeWhile (fun c => c != '=') ++ '=' :: t := by
  induction l with
  | nil => cases h
  | cons c cs ih =>
    by_cases hc : c = '='
    · subst hc
      exact ⟨cs, by simp [List.takeWhile_cons]⟩
    · have hm : '=' ∈ cs := by
        rcases List.mem_cons.mp h with h1 | h1
        · exact absurd h1.symm hc
        · exact h1
      obtain ⟨t, ht⟩ := ih hm
      refine ⟨t, ?_⟩
      simp only [List.takeWhile_cons, bne_iff_ne, ne_eq, hc, not_false_eq_true,
        if_true, List.cons_append, List.cons.injEq, true_and]
      exact ht

theorem matchesKey_of_lineKey {key l : List Char} (h : lineKey l = some key) :
    matchesKey key l = true := by
  rw [lineKey] at h
  split at h
  · exact absurd h (by simp)
  · split at h
    · rename_i hmem
      obtain ⟨t, ht⟩ := takeWhile_split_at_eq hmem
      have hk : l.takeWhile (fun c => c != '=') = key := Option.some.inj h
      rw [hk] at ht
      rw [matchesKey, ht]
      have : key ++ '=' :: t = (key ++ ['=']) ++ t := by
        simp [List.append_assoc]
      rw [this]
      exact listStartsWith_append _ _
    · exact absurd h (by simp)

theorem getElem?_append_middle {α : Type} (pre post : List α) (a b : α)
    (i : Nat) (h : i ≠ pre.length) :
    (pre ++ a :: post)[i]? = (pre ++ b :: post)[i]? := by
  induction pre generalizing i with
  | nil =>
    cases i with
    | zero => exact absurd rfl h
    | succ j => simp
  | cons p ps ih =>
    cases i with
    | zero => simp
    | succ j =>
      simp only [List.cons_append, List.getElem?_cons_succ]
      exact ih j fun e => h (by simp [e])

/- ### Claim C3 -/

/-- C3: for every env-file line sequence and every key and value, upserting a
key that already begins some line (in the sense of the source test, the line
starts with `key=`) replaces the first such line in place, leaving the total
line count and every other line, by content and position, unchanged; and
upserting a key matching no line appends exactly the one line `key=value`
(with its line terminator) at the end and changes nothing else. -/
theorem update_env_var_upsert_spec :
    ∀ (key value : List Char),
      (∀ (pre post : List (List Char)) (l : List Char),
        (∀ x ∈ pre, matchesKey key x = false) → matchesKey key l = true →
          upsertLines key value (pre ++ l :: post) = pre ++ mkLine key value :: post ∧
          (upsertLines key value (pre ++ l :: post)).length = (pre ++ l :: post).length) ∧
      (∀ lines : List (List Char), (∀ l ∈ lines, matchesKey key l = false) →
        upsertLines key value lines = lines ++ [mkLine key value]) := by
  intro key value
  constructor
  · intro pre post l hpre hl
    have he := upsertLines_found value post hpre hl
    refine ⟨he, ?_⟩
    rw [he]
    simp
  · intro lines h
    exact upsertLines_not_found value h

/-- Witness for C3: both cases at concrete inputs.  In
`["B=2", "A=1", "C=3"]`, upserting `A := 9` rewrites only the middle line and
keeps the count at three; upserting the fresh key `D := 4` appends one
line. -/
theorem update_env_var_upsert_spec_witness :
    ((∀ x ∈ ["B=2\n".toList], matchesKey "A".toList x = false) ∧
      matchesKey "A".toList "A=1\n".toList = true ∧
      upsertLines "A".toList "9".toList
          ["B=2\n".toList, "A=1\n".toList, "C=3\n".toList] =
        ["B=2\n".toList, "A=9\n".toList, "C=3\n".toList] ∧
      (upsertLines "A".toList "9".toList
          ["B=2\n".toList, "A=1\n".toList, "C=3\n".toList]).length = 3) ∧
    ((∀ l ∈ ["B=2\n".toList, "A=1\n".toList], matchesKey "D".toList l = false) ∧
      upsertLines "D".toList "4".toList ["B=2\n".toList, "A=1\n".toList] =
        ["B=2\n".toList, "A=1\n".toList, "D=4\n".toList]) := by
  refine ⟨⟨by decide, by decide, ?_, ?_⟩, ⟨by decide, ?_⟩⟩
  · exact ((update_env_var_upsert_spec "A".toList "9".toList).1
      ["B=2\n".toList] ["C=3\n".toList] "A=1\n".toList (by decide) (by decide)).1
  · exact ((update_env_var_upsert_spec "A".toList "9".toList).1
      ["B=2\n".toList] ["C=3\n".toList] "A=1\n".toList (by decide) (by decide)).2
  · exact (update_env_var_upsert_spec "D".toList "4".toList).2
      ["B=2\n".toList, "A=1\n".toList] (by decide)

/- ### Claim C6 -/

/-- C6: for every requested length, `generate_secret` returns exactly that
many characters, and every character is an element of the declared alphabet
of ASCII letters, digits and the punctuation subset. -/
theorem generate_secret_length_alphabet :
    ∀ (n : Nat) (choice : Nat → Fin secretAlphabet.length),
      (generate_secret n choice).length = n ∧
      ∀ c ∈ generate_secret n choice, c ∈ secretAlphabet := by
  intro n choice
  refine ⟨by simp [generate_secret], ?_⟩
  intro c hc
  simp only [generate_secret, List.mem_map] at hc
  obtain ⟨i, -, rfl⟩ := hc
  exact List.get_mem _ _ _

/-- Witness for C6 at the concrete length 5 and the constant choice of the
first alphabet element. -/
theorem generate_secret_length_alphabet_witness :
    (generate_secret 5 fun _ => ⟨0, by decide⟩).length = 5 ∧
    ∀ c ∈ generate_secret 5 (fun _ => ⟨0, by decide⟩), c ∈ secretAlphabet :=
  generate_secret_length_alphabet 5 (fun _ => ⟨0, by decide⟩)

/- ### Claim C10 -/

/-- C10: calling `update_env_var` when the env file does not exist is a
silent no-op: the function returns at once, creating no file and writing
nothing (the absent-file state is returned unchanged, with no error). -/
theorem update_env_var_missing_file_noop :
    ∀ (key value : List Char), update_env_var none key value = none :=
  fun _ _ => rfl

/- ### Claim C4 -/

/-- Counterexample for C4 as stated: the claim quantifies over any single
upsert, but upserting the key `#A` into the file whose single line is the
comment `#A=1` rewrites that comment line, so a non-matching line is not
preserved verbatim even though keys were unique (there were none). -/
theorem update_env_var_comment_clobbered_cex :
    (envKeys ["#A=1\n".toList]).Nodup ∧
    isCommentLine "#A=1\n".toList = true ∧
    upsertLines "#A".toList "2".toList ["#A=1\n".toList] = ["#A=2\n".toList] ∧
    "#A=2\n".toList ≠ "#A=1\n".toList := by
  refine ⟨?_, by decide, by decide, by decide⟩
  simp [envKeys, lineKey, isCommentLine]

/-- C4 amended: for every upsert whose key contains no `=` and does not start
with `#` (all keys the source ever passes are of this shape), `update_env_var`
preserves the EnvFile invariant: if keys are unique among KEY=VALUE lines
they stay unique, and every comment or blank line is preserved verbatim and
in its original position. -/
theorem update_env_var_preserves_invariant :
    ∀ (lines : List (List Char)) (key value : List Char),
      '=' ∉ key → key.head? ≠ some '#' →
      (envKeys lines).Nodup →
      (envKeys (upsertLines key value lines)).Nodup ∧
      ∀ (i : Nat) (l : List Char), lines[i]? = some l →
        (isCommentLine l || isBlankLine l) = true →
        (upsertLines key value lines)[i]? = some l := by
  intro lines key value hk hh hnd
  rcases first_match_split key lines with hnone | ⟨pre, l, post, rfl, hpre, hl⟩
  · rw [upsertLines_not_found value hnone]
    constructor
    · rw [envKeys, List.filterMap_append]
      have hmk : List.filterMap lineKey [mkLine key value] = [key] := by
        simp [lineKey_mkLine value hk hh]
      rw [hmk, List.nodup_append]
      refine ⟨hnd, List.nodup_singleton key, ?_⟩
      intro a ha hb
      rw [List.mem_singleton] at hb
      subst hb
      rw [List.mem_filterMap] at ha
      obtain ⟨x, hx, hxk⟩ := ha
      have hm := matchesKey_of_lineKey hxk
      rw [hnone x hx] at hm
      cases hm
    · intro i x hi _
      have hlt : i < lines.length := (List.getElem?_eq_some.mp hi).1
      rw [List.getElem?_append_left hlt]
      exact hi
  · have he := upsertLines_found value post hpre hl
    rw [he]
    have h1 : lineKey l = some key := lineKey_of_matches hk hh hl
    have h2 : lineKey (mkLine key value) = some key := lineKey_mkLine value hk hh
    constructor
    · rw [envKeys, List.filterMap_append, List.filterMap_cons_some h2]
      rw [envKeys, List.filterMap_append, List.filterMap_cons_some h1] at hnd
      exact hnd
    · intro i x hi hcb
      by_cases hieq : i = pre.length
      · subst hieq
        have hmid : (pre ++ l :: post)[pre.length]? = some l := by
          rw [List.getElem?_append_right (Nat.le_refl _)]
          simp
        rw [hmid] at hi
        have hx := Option.some.inj hi
        subst hx
        rw [not_comment_blank_of_matches hh hl] at hcb
        cases hcb
      · rw [getElem?_append_middle pre post (mkLine key value) l i hieq]
        exact hi

/-- Witness for C4 amended: upserting `DB_HOST := db` into a file holding a
comment, a blank line and two keys keeps the keys unique and the comment and
blank lines verbatim in place. -/
theorem update_env_var_preserves_invariant_witness :
    ('=' ∉ "DB_HOST".toList ∧ "DB_HOST".toList.head? ≠ some '#' ∧
      (envKeys ["# db\n".toList, "DB_HOST=x\n".toList, "\n".toList,
        "DB_NAME=g\n".toList]).Nodup) ∧
    ((envKeys (upsertLines "DB_HOST".toList "db".toList
        ["# db\n".toList, "DB_HOST=x\n".toList, "\n".toList,
          "DB_NAME=g\n".toList])).Nodup ∧
      ∀ (i : Nat) (l : List Char),
        ["# db\n".toList, "DB_HOST=x\n".toList, "\n".toList,
          "DB_NAME=g\n".toList][i]? = some l →
        (isCommentLine l || isBlankLine l) = true →
        (upsertLines "DB_HOST".toList "db".toList
          ["# db\n".toList, "DB_HOST=x\n".toList, "\n".toList,
            "DB_NAME=g\n".toList])[i]? = some l) := by
  refine ⟨⟨by decide, by decide, ?_⟩, ?_⟩
  · simp [envKeys, lineKey, isCommentLine, isBlankLine]
  · exact update_env_var_preserves_invariant _ _ _ (by decide) (by decide)
      (by simp [envKeys, lineKey, isCommentLine, isBlankLine])

/- ### Claim C1 -/

/-- Counterexample for C1 as stated: in a world where the server compilation
exits 1, `build_project` reports failure but the client and admin targets are
attempted zero times, not once each — the source returns as soon as the
server build fails. -/
theorem build_project_server_fail_cex :
    wServerFail.exitCode (serverBuildCmd false) ≠ 0 ∧
    (build_project wServerFail false).2.2 = false ∧
    (build_project wServerFail false).2.1.count (clientBuildCmd false) = 0 ∧
    (build_project wServerFail false).2.1.count (adminBuildCmd false) = 0 := by
  refine ⟨by decide, by decide, by decide, by decide⟩

/-- C1 amended: if the server compilation exits non-zero, the overall build
result is failure and the run stops there — the trace holds only the server
command, so the client and admin targets are not attempted at all. -/
theorem build_project_server_fail_aborts :
    ∀ (w : World) (debug : Bool),
      w.exitCode (serverBuildCmd debug) ≠ 0 →
      build_project w debug = (w, [serverBuildCmd debug], false) := by
  intro w debug h
  simp [build_project, h]

/-- Witness for C1 amended at the concrete failing world. -/
theorem build_project_server_fail_aborts_witness :
    wServerFail.exitCode (serverBuildCmd false) ≠ 0 ∧
    build_project wServerFail false = (wServerFail, [serverBuildCmd false], false) :=
  ⟨by decide, build_project_server_fail_aborts wServerFail false (by decide)⟩

/- ### Claim C8 -/

/-- C8: client and admin build failures are non-fatal: whenever the server
target compiles successfully, all three targets are attempted, in order, each
exactly once, and the overall result is success — whatever exit codes the
client and admin compilations return. -/
theorem build_project_client_admin_nonfatal :
    ∀ (w : World) (debug : Bool),
      w.exitCode (serverBuildCmd debug) = 0 →
      (build_project w debug).2.2 = true ∧
      (build_project w debug).2.1 =
        [serverBuildCmd debug, clientBuildCmd debug, adminBuildCmd debug] := by
  intro w debug h
  simp [build_project, h]

/-- Witness for C8 in a world where the client and admin builds both fail
while the server build succeeds. -/
theorem build_project_client_admin_nonfatal_witness :
    wOnlyServerOk.exitCode (serverBuildCmd false) = 0 ∧
    ((build_project wOnlyServerOk false).2.2 = true ∧
      (build_project wOnlyServerOk false).2.1 =
        [serverBuildCmd false, clientBuildCmd false, adminBuildCmd false]) :=
  ⟨by decide, build_project_client_admin_nonfatal wOnlyServerOk false (by decide)⟩

/- ### Claim C5 -/

/-- Counterexample for C5 as stated: with containerized mode requested and
the container start command failing, the admin binary exists and yet the
migrate subcommand is attempted zero times, not exactly once — the source
returns as soon as the container start fails. -/
theorem setup_database_compose_fail_cex :
    wComposeFail.binAdminExists = true ∧
    (setup_database wComposeFail true).1.count migrateCmd = 0 ∧
    (setup_database wComposeFail true).2 = false := by
  refine ⟨by decide, by decide, by decide⟩

/-- C5 amended: the complete command trace of `setup_database`: the container
start command comes first exactly when containerized mode was requested, and
migrate follows it exactly once precisely when the admin binary exists and
the container start, if requested, succeeded; in particular migrate is never
invoked when the admin binary is absent. -/
theorem setup_database_trace_spec :
    ∀ (w : World) (docker : Bool),
      (setup_database w docker).1 =
        (if docker then [composeUpDbCmd] else []) ++
          (if ((!docker || (w.exitCode composeUpDbCmd == 0)) && w.binAdminExists)
            then [migrateCmd] else []) := by
  intro w docker
  cases docker with
  | false =>
    cases h : w.binAdminExists <;> simp [setup_database, h]
  | true =>
    by_cases hc : w.exitCode composeUpDbCmd = 0
    · cases h : w.binAdminExists <;> simp [setup_database, h, hc]
    · have hb : (w.exitCode composeUpDbCmd == 0) = false :=
        beq_eq_false_iff_ne.mpr hc
      simp [setup_database, hc, hb]

/- ### Claim C2 -/

theorem pyReplaceAux_skip (old new : List Char) :
    ∀ (l s : List Char), pyReplaceAux old new l.length (l ++ s) =
      pyReplaceAux old new 0 s := by
  intro l
  induction l with
  | nil => intro s; rfl
  | cons c cs ih => intro s; exact ih s

theorem pyReplaceAux_no_match (old new : List Char) :
    ∀ (pre s : List Char),
      (∀ i, i < pre.length →
        listStartsWith (List.drop i (pre ++ s)) old = false) →
      pyReplaceAux old new 0 (pre ++ s) = pre ++ pyReplaceAux old new 0 s := by
  intro pre
  induction pre with
  | nil => intro s _; rfl
  | cons c cs ih =>
    intro s h
    have h0 : listStartsWith (c :: (cs ++ s)) old = false := by
      have := h 0 (Nat.zero_lt_succ _)
      simpa using this
    show pyReplaceAux old new 0 (c :: (cs ++ s)) = _
    rw [pyReplaceAux, h0]
    simp only [Bool.false_eq_true, if_false, List.cons_append, List.cons.injEq,
      true_and]
    refine ih s ?_
    intro i hi
    have := h (i + 1) (Nat.succ_lt_succ hi)
    simpa using this

theorem pyReplaceAux_match {old : List Char} (new : List Char)
    (hne : old ≠ []) (s : List Char) :
    pyReplaceAux old new 0 (old ++ s) = new ++ pyReplaceAux old new 0 s := by
  cases old with
  | nil => exact absurd rfl hne
  | cons o ot =>
    have hsw : listStartsWith (o :: (ot ++ s)) (o :: ot) = true := by
      simpa using listStartsWith_append (o :: ot) s
    show pyReplaceAux (o :: ot) new 0 (o :: (ot ++ s)) = _
    rw [pyReplaceAux, hsw]
    simp only [if_true, List.length_cons, Nat.add_sub_cancel]
    rw [pyReplaceAux_skip (o :: ot) new ot s]

set_option maxRecDepth 8000 in
/-- Counterexample for C2 as stated: on a file content holding the
placeholder token twice, the substitution of `setup_environment` replaces
both occurrences — Python `str.replace` is not limited to the first
occurrence, so text beyond the first occurrence does change. -/
theorem substituteJwtSecret_all_occurrences_cex :
    substituteJwtSecret twoPlaceholders secret64 =
      jwtReplacement secret64 ++ '\n' :: (jwtReplacement secret64 ++ ['\n']) ∧
    substituteJwtSecret twoPlaceholders secret64 ≠
      replaceFirstOcc jwtPlaceholder (jwtReplacement secret64) twoPlaceholders := by
  constructor
  · decide
  · decide

/-- C2 amended: the primary secret is inserted by literal text replacement of
the known placeholder token, scanning left to right: before the leftmost
occurrence everything is unchanged, that occurrence becomes
`JWT_SECRET=` followed by the secret, and the text after it is processed the
same way again — so every occurrence of the token, not only the first, is
replaced, and text outside the occurrences is unchanged. -/
theorem substituteJwtSecret_literal_replacement :
    ∀ (pre suf secret : List Char),
      (∀ i, i < pre.length →
        listStartsWith (List.drop i (pre ++ jwtPlaceholder ++ suf))
          jwtPlaceholder = false) →
      substituteJwtSecret (pre ++ jwtPlaceholder ++ suf) secret =
        pre ++ jwtReplacement secret ++ substituteJwtSecret suf secret := by
  intro pre suf secret h
  have hne : jwtPlaceholder ≠ [] := by decide
  have hempty : jwtPlaceholder.isEmpty = false := by decide
  have h2 : ∀ i, i < pre.length →
      listStartsWith (List.drop i (pre ++ (jwtPlaceholder ++ suf)))
        jwtPlaceholder = false := by
    intro i hi
    have hx := h i hi
    rwa [List.append_assoc] at hx
  rw [substituteJwtSecret, pyReplace, hempty]
  simp only [Bool.false_eq_true, if_false]
  rw [List.append_assoc]
  rw [pyReplaceAux_no_match jwtPlaceholder (jwtReplacement secret) pre
    (jwtPlaceholder ++ suf) h2]
  rw [pyReplaceAux_match (jwtReplacement secret) hne suf]
  rw [substituteJwtSecret, pyReplace, hempty]
  simp only [Bool.false_eq_true, if_false]
  simp [List.append_assoc]

set_option maxRecDepth 8000 in
/-- Witness for C2 amended: a concrete content `A=1`, placeholder, `B=2`
around the placeholder, with a concrete 64-character secret. -/
theorem substituteJwtSecret_literal_replacement_witness :
    (∀ i, i < preW.length →
      listStartsWith (List.drop i (preW ++ jwtPlaceholder ++ sufW))
        jwtPlaceholder = false) ∧
    substituteJwtSecret (preW ++ jwtPlaceholder ++ sufW) secret64 =
      preW ++ jwtReplacement secret64 ++ substituteJwtSecret sufW secret64 :=
  ⟨by decide, substituteJwtSecret_literal_replacement preW sufW secret64
    (by decide)⟩

/- ### Claim C9 -/

/-- C9: invoking the dispatcher with zero flags (an argv of length 1) is help
mode: the process exits with code 0 after printing usage text, and no
external command is invoked (the trace is empty). -/
theorem main_no_flags_help_exit :
    ∀ (w : World), main 1 noFlags w = (0, []) :=
  fun _ => rfl

/- ### Claim C7 -/

/-- C7: with `--setup` requested and a required-tool probe (go or git)
exiting non-zero, the dispatcher exits with code 1 directly after the
dependency check: the command trace holds exactly the four probe commands,
so no dependency-install command and no build command is ever invoked. -/
theorem main_setup_failing_probe_exits_early :
    ∀ (argc : Nat) (args : Args) (w : World),
      argc ≠ 1 → args.setup = true →
      (w.exitCode goVersionCmd ≠ 0 ∨ w.exitCode gitVersionCmd ≠ 0) →
      main argc args w =
        (1, [goVersionCmd, dockerVersionCmd, composeVersionCmd, gitVersionCmd]) ∧
      ∀ c ∈ (main argc args w).2, ∀ (debug : Bool),
        c ∉ installOrBuildCmds debug := by
  intro argc args w hargc hs hp
  have hok : ((w.exitCode goVersionCmd == 0) &&
      (w.exitCode gitVersionCmd == 0)) = false := by
    rcases hp with h | h
    · rw [beq_eq_false_iff_ne.mpr h, Bool.false_and]
    · rw [beq_eq_false_iff_ne.mpr h, Bool.and_false]
  have hflag : (args.check || args.setup) = true := by rw [hs, Bool.or_true]
  have hmain : main argc args w =
      (1, [goVersionCmd, dockerVersionCmd, composeVersionCmd, gitVersionCmd]) := by
    simp only [main, hargc, if_false, hflag, if_true, check_dependencies, hok]
  refine ⟨hmain, ?_⟩
  intro c hc debug
  rw [hmain] at hc
  simp only [List.mem_cons, List.mem_singleton, List.not_mem_nil, or_false] at hc
  rcases hc with rfl | rfl | rfl | rfl <;> cases debug <;> decide

/-- Witness for C7 at the concrete world where the go probe fails and the
flags are exactly `--setup`. -/
theorem main_setup_failing_probe_exits_early_witness :
    ((2 : Nat) ≠ 1 ∧ ({ noFlags with setup := true } : Args).setup = true ∧
      wGoProbeFail.exitCode goVersionCmd ≠ 0) ∧
    (main 2 { noFlags with setup := true } wGoProbeFail =
        (1, [goVersionCmd, dockerVersionCmd, composeVersionCmd, gitVersionCmd]) ∧
      ∀ c ∈ (main 2 { noFlags with setup := true } wGoProbeFail).2,
        ∀ (debug : Bool), c ∉ installOrBuildCmds debug) :=
  ⟨⟨by decide, rfl, by decide⟩,
    main_setup_failing_probe_exits_early 2 _ wGoProbeFail (by decide) rfl
      (Or.inl (by decide))⟩

end GpuProxyConfigure
